import Mathlib

/-
Verification of the fireengine simulation core against its design notes.

The development shallowly embeds the simulation layer:
 * the per-building fire lifecycle scheduler (fireSystem, src/unnamed/part_000),
   modelled as a state record plus an explicit event-step function covering the
   operations the repository performs: the randomized ignition callback, the
   10 s destruction timeout, the raw startFlame API call, the pointer-pick
   handler (src/unnamed/part_005), and the extinguish API call;
 * the procedural street generator and the point-in-road test
   (public/js/game/streetGenerator.js), over exact rationals;
 * the xorshift32 seeded RNG and the building-placement pass, over exact
   rationals, with the ambient Math.random of the seed fallback made an
   explicit entropy parameter;
 * the vehicle speed update (public/js/game/fireEngine.js, update), generic
   over a linear ordered field so concrete runs can be computed over the
   rationals;
 * the AABB-vs-circle collision resolution block and the mission state
   machine of the per-frame tick handler (src/unnamed/part_005), over the
   reals since they use square roots and trigonometry.

Floating point is modelled by exact arithmetic; where the source stores
Math.cos(pi/2) (about 6.1e-17) the model stores 0, which does not change any
comparison decided by a margin larger than 1e-15.
-/

namespace FireEngine

/- The concrete runs below evaluate rational arithmetic definitionally;
the library marks the Rat operations irreducible, which only affects
elaboration-time unfolding, so they are restored to semireducible here. -/
set_option allowUnsafeReducibility true
attribute [local semireducible] Rat.add Rat.mul Rat.inv Rat.sub

/-! ## Building lifecycle states (the `state` string field of a house) -/

inductive BState where
  | normal
  | burning
  | extinguished
  | destroyed
deriving DecidableEq, Repr

/-! ## Fire scheduler (createFireSystem, src/unnamed/part_000)

The JS closure keeps: the `houses` array, each house mutable `state`, the
pending destruction setTimeouts (one per scheduler-ignited burning house),
the pending scheduleNextFire setTimeouts, the `current` pointer, and the
onDestroyed callback.  `timers` lists the house ids with an armed destruction
timeout; `sched` counts the pending scheduleNextFire timers; `cbCount h`
counts how often the destroyed callback fired for house `h`.  The `fires`
map entries (visual bookkeeping: startedAt, timeoutId field) carry no
lifecycle information beyond what these fields record. -/

structure FireSys where
  houses : List Nat
  states : Nat → BState
  timers : List Nat
  sched : Nat
  cbCount : Nat → Nat
  current : Option Nat

namespace FireSys

def setState (f : Nat → BState) (h : Nat) (v : BState) : Nat → BState :=
  fun n => if n = h then v else f n

/-- `startFlame(h)`: unconditionally marks the house burning and makes it the
current fire.  There is no state guard in the source. -/
def startFlame (s : FireSys) (h : Nat) : FireSys :=
  { s with states := setState s.states h .burning, current := some h }

/-- `stopFlame(h)`: clears the current pointer when it is this house. -/
def stopFlame (s : FireSys) (h : Nat) : FireSys :=
  { s with current := if s.current = some h then none else s.current }

/-- `markDestroyed(h)`: state becomes destroyed and the destroyed callback
fires once (material changes are visual only). -/
def markDestroyed (s : FireSys) (h : Nat) : FireSys :=
  { s with states := setState s.states h .destroyed,
           cbCount := fun n => if n = h then s.cbCount n + 1 else s.cbCount n }

/-- `extinguish(h)`: sets the state to extinguished (no guard in the source),
stops the flame visual, and calls scheduleNextFire (one more pending random
ignition).  No clearTimeout call exists anywhere in the scheduler, so the
armed destruction timeout of `h`, if any, stays pending. -/
def extinguish (s : FireSys) (h : Nat) : FireSys :=
  let s1 := { s with states := setState s.states h .extinguished }
  let s2 := stopFlame s1 h
  { s2 with sched := s2.sched + 1 }

end FireSys

/-- The operations the repository performs on the scheduler state.
`schedFire h` is a pending scheduleNextFire callback running and selecting
candidate `h` (the visibility preference only narrows the candidate set, so
the chosen candidate is an event parameter; candidates are filtered to
`state === "normal"`).  `schedNoCandidate` is that callback finding no normal
house (it merely reschedules itself, a net no-op on this state).
`timeout h` is the 10 s destruction timer of `h` firing.  `directStart h` is a
raw `startFlame` API call (used for the initial fires in the entry point).
`pointerPick h` is the click handler, which guards only against
`state === "destroyed"`.  `extCall h` is an `extinguish` API call. -/
inductive FEvent where
  | schedFire (h : Nat)
  | schedNoCandidate
  | timeout (h : Nat)
  | directStart (h : Nat)
  | pointerPick (h : Nat)
  | extCall (h : Nat)
deriving DecidableEq, Repr

/-- One scheduler event.  Events whose firing condition does not hold
(a timeout with no armed timer, an ignition callback with none pending or a
non-normal candidate) cannot occur in the source and leave the state
unchanged here. -/
def fstep (s : FireSys) : FEvent → FireSys
  | .schedFire h =>
    if 0 < s.sched ∧ h ∈ s.houses ∧ s.states h = .normal then
      let s1 := FireSys.startFlame { s with sched := s.sched - 1 } h
      { s1 with timers := h :: s1.timers }
    else s
  | .schedNoCandidate => s
  | .timeout h =>
    if h ∈ s.timers then
      let s1 := { s with timers := s.timers.erase h }
      let s2 := if s1.states h = .burning
                then FireSys.stopFlame (FireSys.markDestroyed s1 h) h
                else s1
      { s2 with sched := s2.sched + 1 }
    else s
  | .directStart h => FireSys.startFlame s h
  | .pointerPick h =>
    if h ∈ s.houses ∧ s.states h ≠ .destroyed then FireSys.startFlame s h else s
  | .extCall h => FireSys.extinguish s h

/-- A sequence of scheduler events. -/
def runEvents (s : FireSys) (evs : List FEvent) : FireSys :=
  evs.foldl fstep s

/-! ## Street generator (generateRoads, streetGenerator.js) -/

/-- Truncation toward zero, as the implicit integer conversion of the JS `%`
operator on numbers. -/
def qtrunc (q : ℚ) : ℤ :=
  Int.tdiv q.num q.den

/-- Math.floor on an exact rational. -/
def qfloor (q : ℚ) : ℤ :=
  Int.fdiv q.num q.den

/-- Math.ceil on an exact rational. -/
def qceil (q : ℚ) : ℤ :=
  -qfloor (-q)

/-- JS remainder `v % m` (sign follows the dividend). -/
def jsMod (v m : ℚ) : ℚ :=
  v - m * qtrunc (v / m)

/-- isMajorCoord: remainder against the major spacing with a 1e-6 float
tolerance. -/
def isMajorCoord (majorSpacing v : ℚ) : Bool :=
  let r := jsMod (jsMod v majorSpacing + majorSpacing) majorSpacing
  if |r| < 1 / 1000000 ∨ |r - majorSpacing| < 1 / 1000000 then true else false

/-- generateGridPositions(min, max, spacing): every multiple of `spacing`
from the first one at or above `min` up to `max`.  The JS loop only
terminates for positive spacing; the model returns the empty grid otherwise
and the theorems assume positive spacing. -/
def gridPositions (lo hi spacing : ℚ) : List ℚ :=
  if spacing ≤ 0 then []
  else
    let v0 : ℚ := (qceil (lo / spacing) : ℤ) * spacing
    let n : ℕ := (qfloor ((hi - v0) / spacing) + 1).toNat
    (List.range n).map fun k => v0 + (k : ℚ) * spacing

/-- One road record.  The source stores center, length, width, yaw and the
precomputed cos/sin of the yaw along with the half extents; vertical roads
have yaw pi/2 and horizontal roads yaw 0, so the stored cosine and sine are
0/1 exactly (up to the 6e-17 float error of Math.cos(pi/2)). -/
structure Road where
  centerX : ℚ
  centerZ : ℚ
  length : ℚ
  width : ℚ
  cos : ℚ
  sin : ℚ
  halfL : ℚ
  halfW : ℚ
  vertical : Bool
  isMajor : Bool
deriving DecidableEq, Repr

/-- A vertical road (along Z) at x: yaw = pi/2. -/
def mkVRoad (extent majorW minorW : ℚ) (mj : Bool) (x : ℚ) : Road :=
  let width := if mj then majorW else minorW
  let length := extent * 2 + 2
  { centerX := x, centerZ := 0, length := length, width := width,
    cos := 0, sin := 1, halfL := length / 2, halfW := width / 2,
    vertical := true, isMajor := mj }

/-- A horizontal road (along X) at z: yaw = 0. -/
def mkHRoad (extent majorW minorW : ℚ) (mj : Bool) (z : ℚ) : Road :=
  let width := if mj then majorW else minorW
  let length := extent * 2 + 2
  { centerX := 0, centerZ := z, length := length, width := width,
    cos := 1, sin := 0, halfL := length / 2, halfW := width / 2,
    vertical := false, isMajor := mj }

/-- generateRoads: minor and major grid coordinates on both axes, deduplicated
in insertion order (the JS Set union), vertical roads first. -/
def genRoads (extent majorSpacing minorSpacing majorW minorW : ℚ) : List Road :=
  let xsMinor := gridPositions (-extent) extent minorSpacing
  let xsMajor := gridPositions (-extent) extent majorSpacing
  let allXs := xsMinor ++ xsMajor.filter (fun v => ¬ v ∈ xsMinor)
  let zsMinor := gridPositions (-extent) extent minorSpacing
  let zsMajor := gridPositions (-extent) extent majorSpacing
  let allZs := zsMinor ++ zsMajor.filter (fun v => ¬ v ∈ zsMinor)
  (allXs.map fun x => mkVRoad extent majorW minorW (isMajorCoord majorSpacing x) x)
    ++ (allZs.map fun z => mkHRoad extent majorW minorW (isMajorCoord majorSpacing z) z)

/-- Local frame of a road: (along-length, across-width) coordinates of a
query point. -/
def roadLocal (r : Road) (px pz : ℚ) : ℚ × ℚ :=
  let dx := px - r.centerX
  let dz := pz - r.centerZ
  (dx * r.cos + dz * r.sin, -dx * r.sin + dz * r.cos)

/-- The containment test of one road inside isPointOnAnyRoad. -/
def roadContains (r : Road) (px pz : ℚ) : Bool :=
  decide (|(roadLocal r px pz).1| ≤ r.halfL ∧ |(roadLocal r px pz).2| ≤ r.halfW)

/-- isPointOnAnyRoad: true on the first road containing the point. -/
def isPointOnAnyRoad (roads : List Road) (px pz : ℚ) : Bool :=
  roads.any fun r => roadContains r px pz

/-- The point at signed distance `d` from the road center along the
across-width axis of the road local frame (the perpendicular direction). -/
def perpOffset (r : Road) (d : ℚ) : ℚ × ℚ :=
  (r.centerX - d * r.sin, r.centerZ + d * r.cos)

/-! ## Seeded RNG and building placement (seeded / placeHouses) -/

/-- Keep the low 32 bits, as the JS int32/uint32 coercions of the bitwise
operators. -/
def u32 (n : Nat) : Nat := n % 4294967296

/-- One xorshift32 step: x ^= x << 13; x ^= x >>> 17; x ^= x << 5. -/
def xorshift32 (x : Nat) : Nat :=
  let a := u32 (Nat.xor x (u32 (x <<< 13)))
  let b := Nat.xor a (a >>> 17)
  u32 (Nat.xor b (u32 (b <<< 5)))

/-- One call of the seeded generator: steps the state and returns
(x >>> 0) / 0xFFFFFFFF. -/
def rngNext (x : Nat) : Nat × ℚ :=
  let y := xorshift32 x
  (y, (y : ℚ) / 4294967295)

/-- One placed structure: either a multi-floor apartment block (major roads
only) or a house lot with a model index into the 13-entry HOUSE_MODELS array
and a scale factor.  Only the placement-relevant data is recorded; meshes and
asynchronous GLB loading are render-host concerns. -/
inductive Placement where
  | apt (wx wz width depth height : ℚ)
  | house (wx wz : ℚ) (modelIdx : ℕ) (scale : ℚ)
deriving DecidableEq, Repr

/-- The house branch of one candidate: consumes two RNG values for the model
url index and the scale (0.1 to 0.25). -/
def mkHouse (wx wz : ℚ) (x : Nat) : Placement × Nat × Bool :=
  let p1 := rngNext x
  let idx := (qfloor (p1.2 * 13)).toNat
  let p2 := rngNext p1.1
  (.house wx wz idx (1 / 10 + p2.2 * (3 / 20)), p2.1, true)

/-- One candidate slot `i` on side `sgn` of road `r`.  Returns the placement,
the RNG state after, and whether it counted toward totalHouses (apartments do
not: the source hits `continue` before the counter).  The apartment draw
happens only on major roads because JS `&&` short-circuits before calling
rng(). -/
def placeCand (r : Road) (sgn : ℚ) (i : ℕ) (x : Nat) : Placement × Nat × Bool :=
  let perSide : ℕ := if r.isMajor then 2 else 3
  let t : ℚ := ((i : ℚ) + 1) / ((perSide : ℚ) + 1)
  let along := (t - 1 / 2) * r.length
  let p1 := rngNext x
  let away := sgn * (r.halfW + 8 + p1.2 * 10)
  let wx := r.centerX + along * r.cos + (-away) * r.sin
  let wz := r.centerZ + along * r.sin + away * r.cos
  if r.isMajor then
    let p2 := rngNext p1.1
    if p2.2 < 1 / 2 then
      let p3 := rngNext p2.1
      let p4 := rngNext p3.1
      (.apt wx wz (12 + p3.2 * 12) (12 + p4.2 * 12) 18, p4.1, false)
    else
      mkHouse wx wz p2.1
  else
    mkHouse wx wz p1.1

/-- The inner `for i` loop over the candidate slots of one road side, with
the totalHouses cutoff checked at the top of each iteration. -/
def candLoop (r : Road) (sgn : ℚ) (maxH : ℕ) :
    List ℕ → Nat → ℕ → List Placement × Nat × ℕ
  | [], x, tot => ([], x, tot)
  | i :: is, x, tot =>
    if maxH ≤ tot then ([], x, tot)
    else
      let c := placeCand r sgn i x
      let tot1 := if c.2.2 then tot + 1 else tot
      let rest := candLoop r sgn maxH is c.2.1 tot1
      (c.1 :: rest.1, rest.2)

/-- The `for s of [-1, 1]` loop (the cutoff break after a side is equivalent
to the cutoff check at the first slot of the next side). -/
def sideLoop (r : Road) (maxH : ℕ) :
    List ℚ → Nat → ℕ → List Placement × Nat × ℕ
  | [], x, tot => ([], x, tot)
  | sgn :: ss, x, tot =>
    let a := candLoop r sgn maxH (List.range (if r.isMajor then 2 else 3)) x tot
    let b := sideLoop r maxH ss a.2.1 a.2.2
    (a.1 ++ b.1, b.2)

/-- The outer loop over all roads. -/
def roadLoop (maxH : ℕ) : List Road → Nat → ℕ → List Placement × Nat × ℕ
  | [], x, tot => ([], x, tot)
  | r :: rs, x, tot =>
    let a := sideLoop r maxH [-1, 1] x tot
    let b := roadLoop maxH rs a.2.1 a.2.2
    (a.1 ++ b.1, b.2)

/-- The seed actually used: `options.seed || Math.floor(Math.random()*1e9)+42`.
A missing seed, and also the integer seed 0 (falsy in JS), fall back to a
value derived from ambient entropy, made explicit here as the value of
Math.floor(Math.random()*1e9). -/
def usedSeed (entropy : Nat) : Option Nat → Nat
  | some s => if s = 0 then entropy + 42 else s
  | none => entropy + 42

/-- placeHouses restricted to its placement data: the list of placed
structures, in placement order. -/
def placeHouses (entropy : Nat) (seedOpt : Option Nat) (roads : List Road)
    (maxHouses : ℕ) : List Placement :=
  (roadLoop maxHouses roads (u32 (usedSeed entropy seedOpt)) 0).1

/-- One full world generation run: generateRoads then placeHouses. -/
def worldGen (entropy : Nat) (seedOpt : Option Nat)
    (extent majorSpacing minorSpacing majorW minorW : ℚ) (maxHouses : ℕ) :
    List Road × List Placement :=
  let roads := genRoads extent majorSpacing minorSpacing majorW minorW
  (roads, placeHouses entropy seedOpt roads maxHouses)

/-! ## Vehicle motion: the speed part of update(dtSec)
(public/js/game/fireEngine.js, lines 154-181)

Generic over a linear ordered field so that concrete runs evaluate over ℚ
while the full motion model instantiates it at ℝ. -/

/-- BABYLON.Scalar.Clamp(value, lo, hi) = min(hi, max(lo, value)). -/
def clampV {α : Type} [LinearOrderedField α] (v lo hi : α) : α :=
  min hi (max lo v)

/-- The speed update of one tick: if the steering intensity exceeds the 5%
deadband, turn-proportional braking applies (up to 2 units/s2) and only
braking toward a lower target is allowed; otherwise the speed moves toward
the target clamped to the asymmetric rates (accel 6, brake 9). -/
def feSpeed {α : Type} [LinearOrderedField α]
    (speed targetSpeed steer maxSteer dt : α) : α :=
  let accel : α := 6
  let brake : α := 9
  let steerAmount := |steer / maxSteer|
  if 1 / 20 < steerAmount then
    let turnBrake := steerAmount * 2
    let s1 := max 0 (speed - turnBrake * dt)
    if targetSpeed < s1 then
      s1 + clampV (targetSpeed - s1) (-brake * dt) 0
    else s1
  else
    let diff := targetSpeed - speed
    let rate := if diff < 0 then brake else accel
    speed + clampV diff (-rate * dt) (rate * dt)

/-- The heading and position part of update(dtSec): heading integrates the
steer scaled by a speed factor with floor 0.6, then the position integrates
the heading-derived forward vector.  Returns (speed, heading, px, pz). -/
noncomputable def feUpdate (speed targetSpeed steer maxSteer heading px pz dt : ℝ) :
    ℝ × ℝ × ℝ × ℝ :=
  let s1 := feSpeed speed targetSpeed steer maxSteer dt
  let speedFactor := max (3 / 5) (s1 / 5)
  let h1 := heading + steer * speedFactor * dt
  (s1, h1, px + Real.sin h1 * (s1 * dt), pz + Real.cos h1 * (s1 * dt))

/-! ## Collision block of the per-frame tick handler
(src/unnamed/part_005, lines 329-397) -/

/-- Math.atan2(y, x). -/
noncomputable def jatan2 (y x : ℝ) : ℝ :=
  if 0 < x then Real.arctan (y / x)
  else if x < 0 ∧ 0 ≤ y then Real.arctan (y / x) + Real.pi
  else if x < 0 ∧ y < 0 then Real.arctan (y / x) - Real.pi
  else if x = 0 ∧ 0 < y then Real.pi / 2
  else if x = 0 ∧ y < 0 then -(Real.pi / 2)
  else 0

/-- The approximate radius of the fire engine used by the collision test. -/
noncomputable def engineRadius : ℝ := 3

/-- A building as the collision block sees it: the world bounding box of its
mesh in the XZ plane plus its lifecycle state. -/
structure CHouse where
  minX : ℝ
  minZ : ℝ
  maxX : ℝ
  maxZ : ℝ
  state : BState

/-- The collision test and response against one building: closest point on
the AABB, collision when within the engine radius, push-out along the
normal (heading-direction fallback when the distance is under 1e-3),
velocity reflection and the 0.7 restitution factor.  Returns the new
(position, speed, heading) or none when there is no collision. -/
noncomputable def resolveCollision (b : CHouse) (px pz speed heading : ℝ) :
    Option ((ℝ × ℝ) × ℝ × ℝ) :=
  let closestX := max b.minX (min px b.maxX)
  let closestZ := max b.minZ (min pz b.maxZ)
  let distX := px - closestX
  let distZ := pz - closestZ
  let distSq := distX * distX + distZ * distZ
  if distSq < engineRadius * engineRadius then
    let dist := Real.sqrt distSq
    let n : ℝ × ℝ :=
      if dist < 1 / 1000 then (Real.sin heading, Real.cos heading)
      else (distX / dist, distZ / dist)
    let pen := engineRadius - dist
    let px1 := px + n.1 * pen
    let pz1 := pz + n.2 * pen
    let velX := Real.sin heading * speed
    let velZ := Real.cos heading * speed
    let d := velX * n.1 + velZ * n.2
    let rX := velX - 2 * d * n.1
    let rZ := velZ - 2 * d * n.2
    some ((px1, pz1), speed * (7 / 10), jatan2 rX rZ)
  else none

/-- The per-tick collision loop: skips destroyed buildings and stops at the
first resolved collision (the `break`).  Also returns how many collisions
were resolved. -/
noncomputable def collisionPass (px pz speed heading : ℝ) :
    List CHouse → ((ℝ × ℝ) × ℝ × ℝ) × ℕ
  | [] => (((px, pz), speed, heading), 0)
  | b :: bs =>
    if b.state = .destroyed then collisionPass px pz speed heading bs
    else
      match resolveCollision b px pz speed heading with
      | some r => (r, 1)
      | none => collisionPass px pz speed heading bs

/-! ## Mission state machine of the tick handler (src/unnamed/part_005) -/

open Classical

inductive Mode where
  | Driving
  | FlyingToFire
  | Extinguishing
deriving DecidableEq, Repr

/-- A building as the mission logic sees it: identity, mesh world position,
bounding-box vertical extent, lifecycle state. -/
structure MHouse where
  id : ℕ
  px : ℝ
  py : ℝ
  pz : ℝ
  bbMinY : ℝ
  bbMaxY : ℝ
  state : BState

/-- The `game` record fields the mission state machine reads and writes. -/
structure Game where
  mode : Mode
  score : ℤ
  activeHouse : Option ℕ
  holdOnTarget : ℝ
  hasDispatchedDrone : Bool
  hasExceeded10MPH : Bool
  waterActive : Bool
  droneTargetPos : Option (ℝ × ℝ × ℝ)

/-- Euclidean length of a 3D vector (BABYLON Vector3.length). -/
noncomputable def vlen3 (x y z : ℝ) : ℝ :=
  Real.sqrt (x * x + y * y + z * z)

/-- The burning-house scan of the Driving branch: for each burning house,
the direction to it (BABYLON normalize leaves the zero vector unchanged),
the 120-degree cone test dot > -0.5 against the engine forward vector, and
the strict nearest-distance update (the accumulator none plays the role of
the Infinity sentinel). -/
noncomputable def scanNearest (ex ey ez fx fz : ℝ) :
    List MHouse → Option (MHouse × ℝ) → Option (MHouse × ℝ)
  | [], acc => acc
  | h :: hs, acc =>
    let tx := h.px - ex
    let ty := h.py - ey
    let tz := h.pz - ez
    let d := vlen3 tx ty tz
    let n : ℝ × ℝ × ℝ := if d = 0 then (tx, ty, tz) else (tx / d, ty / d, tz / d)
    let dot := n.1 * fx + n.2.2 * fz
    let better : Prop := match acc with
      | none => True
      | some p => d < p.2
    let acc1 := if h.state = .burning ∧ -(1 / 2) < dot ∧ better then some (h, d) else acc
    scanNearest ex ey ez fx fz hs acc1

/-- The distance term of the scan: |house position - engine position|. -/
noncomputable def dTo (ex ey ez : ℝ) (h : MHouse) : ℝ :=
  vlen3 (h.px - ex) (h.py - ey) (h.pz - ez)

/-- The cone term of the scan: the dot product of the normalized direction
to the house with the engine forward vector (fx, 0, fz). -/
noncomputable def coneDot (ex ey ez fx fz : ℝ) (h : MHouse) : ℝ :=
  let tx := h.px - ex
  let ty := h.py - ey
  let tz := h.pz - ez
  let d := vlen3 tx ty tz
  let n : ℝ × ℝ × ℝ := if d = 0 then (tx, ty, tz) else (tx / d, ty / d, tz / d)
  n.1 * fx + n.2.2 * fz

/-- A house qualifies for dispatch: burning and inside the dot > -0.5 cone. -/
def qualifiesFor (ex ey ez fx fz : ℝ) (h : MHouse) : Prop :=
  h.state = .burning ∧ -(1 / 2) < coneDot ex ey ez fx fz h

/-- The strict nearest-distance update condition of the scan (the none
accumulator plays the role of the Infinity sentinel). -/
def accBetter (dnew : ℝ) : Option (MHouse × ℝ) → Prop
  | none => True
  | some p => dnew < p.2

/-- The Driving branch of the tick handler (lines 505-565): the one-time
10 mph capability gate, the once-per-stop drone dispatch toward the nearest
burning house in the forward cone (only when the drone and its water system
have loaded), and the dispatch-flag reset once the vehicle moves again. -/
noncomputable def drivingStep (g : Game) (speed ex ey ez heading : ℝ)
    (houses : List MHouse) (droneLoaded : Bool) : Game :=
  if g.mode = .Driving then
    let g1 := if g.hasExceeded10MPH = false ∧ 10 ≤ speed
              then { g with hasExceeded10MPH := true } else g
    let g2 :=
      if speed = 0 ∧ g1.hasDispatchedDrone = false ∧ g1.hasExceeded10MPH = true then
        match scanNearest ex ey ez (Real.sin heading) (Real.cos heading) houses none with
        | some p =>
          if droneLoaded = true then
            { g1 with mode := .FlyingToFire,
                      activeHouse := some p.1.id,
                      droneTargetPos := some (p.1.px,
                        p.1.bbMaxY + max 5 ((p.1.bbMaxY - p.1.bbMinY) * (1 / 2)),
                        p.1.pz),
                      hasDispatchedDrone := true }
          else g1
        | none => g1
      else g1
    if ¬speed = 0 ∧ g2.hasDispatchedDrone = true
    then { g2 with hasDispatchedDrone := false } else g2
  else g

/-- The Extinguishing branch of the tick handler (lines 625-719): open-hand
cancellation first; then, with a burning active target and the drone present,
the hold time accumulates by dt (no aim-hit condition is consulted), and on
reaching the 5 s duration the building is extinguished through the fire
scheduler, +100 points are awarded, the water is deactivated and the mode
returns to Driving; without a valid burning target the mode reverts to
Driving without points. -/
noncomputable def extinguishingStep (g : Game) (fs : FireSys) (dt : ℝ)
    (gestureOpen dronePresent : Bool) : Game × FireSys :=
  if g.mode = .Extinguishing then
    if gestureOpen = true then
      ({ g with mode := .Driving, waterActive := false, activeHouse := none,
                holdOnTarget := 0, droneTargetPos := none }, fs)
    else
      match g.activeHouse with
      | some h =>
        if fs.states h = .burning ∧ dronePresent = true then
          let hold1 := g.holdOnTarget + dt
          if 5 ≤ hold1 then
            ({ g with mode := .Driving, score := g.score + 100,
                      waterActive := false, activeHouse := none,
                      holdOnTarget := 0, droneTargetPos := none },
             FireSys.extinguish fs h)
          else ({ g with holdOnTarget := hold1 }, fs)
        else
          ({ g with mode := .Driving, waterActive := false, activeHouse := none,
                    holdOnTarget := 0, droneTargetPos := none }, fs)
      | none =>
        ({ g with mode := .Driving, waterActive := false, activeHouse := none,
                  holdOnTarget := 0, droneTargetPos := none }, fs)
  else (g, fs)

/-! ## Aim model (createWaterSystem.isHittingHouse, src/unnamed/part_000) -/

/-- aimVector(): yaw/pitch to a forward unit vector in nozzle space. -/
noncomputable def aimVec (yaw pitch : ℝ) : ℝ × ℝ × ℝ :=
  (Real.sin yaw * Real.cos pitch, Real.sin pitch, Real.cos yaw * Real.cos pitch)

/-- isHittingHouse: project the emitter-to-center vector on the aim ray,
require the projection in [0, 30], and the distance from the center to the
closest ray point under the 3.0 tolerance radius. -/
noncomputable def isHittingHouse (ox oy oz cx cy cz yaw pitch : ℝ) : Prop :=
  let a := aimVec yaw pitch
  let tx := cx - ox
  let ty := cy - oy
  let tz := cz - oz
  let along := tx * a.1 + ty * a.2.1 + tz * a.2.2
  0 ≤ along ∧ along ≤ 30 ∧
    vlen3 (ox + a.1 * along - cx) (oy + a.2.1 * along - cy)
      (oz + a.2.2 * along - cz) < 3

/-! ## Concrete fixtures for closed runs -/

/-- Two normal houses, one pending random ignition. -/
def fsAllNormal : FireSys :=
  { houses := [0, 1], states := fun _ => .normal, timers := [], sched := 1,
    cbCount := fun _ => 0, current := none }

/-- One extinguished house. -/
def fsExt : FireSys :=
  { houses := [0], states := fun _ => .extinguished, timers := [], sched := 0,
    cbCount := fun _ => 0, current := none }

/-- House 0 destroyed, house 1 normal. -/
def fsDesNorm : FireSys :=
  { houses := [0, 1], states := fun n => if n = 0 then .destroyed else .normal,
    timers := [], sched := 0, cbCount := fun _ => 0, current := none }

/-- House 0 burning with its destruction timeout armed (the state right after
a scheduler ignition). -/
def fsBurn : FireSys :=
  { houses := [0], states := fun _ => .burning, timers := [0], sched := 0,
    cbCount := fun _ => 0, current := some 0 }

/-- A small generated road grid: extent 10, spacings 10, widths 4
(coordinates -10, 0, 10 on both axes, all classified major). -/
def roadsFix : List Road := genRoads 10 10 10 4 4

/-- The vertical road of `roadsFix` through x = 0. -/
def vRoad0 : Road :=
  { centerX := 0, centerZ := 0, length := 22, width := 4, cos := 0, sin := 1,
    halfL := 11, halfW := 2, vertical := true, isMajor := true }

/-- A small non-destroyed building with bounding box [0,1] x [0,1]. -/
noncomputable def cHouseFix : CHouse :=
  { minX := 0, minZ := 0, maxX := 1, maxZ := 1, state := .normal }

/-- A large non-destroyed building with bounding box [0,10] x [0,10]. -/
noncomputable def cHouseBig : CHouse :=
  { minX := 0, minZ := 0, maxX := 10, maxZ := 10, state := .normal }

/-- A burning mission house 5 units straight ahead of the origin. -/
noncomputable def mHouseFix : MHouse :=
  { id := 7, px := 0, py := 0, pz := 5, bbMinY := 0, bbMaxY := 4,
    state := .burning }

/-- A Driving-mode game state with the capability gate unlocked and the
per-stop dispatch flag clear. -/
noncomputable def gameFix : Game :=
  { mode := .Driving, score := 0, activeHouse := none, holdOnTarget := 0,
    hasDispatchedDrone := false, hasExceeded10MPH := true,
    waterActive := false, droneTargetPos := none }

/-- An Extinguishing-mode game state aimed at house 0 with no accumulated
hold time. -/
noncomputable def gameExtFix : Game :=
  { mode := .Extinguishing, score := 0, activeHouse := some 0,
    holdOnTarget := 0, hasDispatchedDrone := true, hasExceeded10MPH := true,
    waterActive := true, droneTargetPos := some (0, 10, 5) }

/-! # Theorems

Fire scheduler invariants. -/

/-- Once a house is not normal with no armed timer, every scheduler event
keeps it not normal with no armed timer and never fires its destroyed
callback (nothing ever sets a state back to normal, and a timer is armed
only by a scheduler ignition, which requires a normal state). -/
theorem fstep_stable (s : FireSys) (e : FEvent) (h : Nat)
    (hn : s.states h ≠ .normal) (ht : h ∉ s.timers) :
    (fstep s e).states h ≠ .normal ∧ h ∉ (fstep s e).timers ∧
      (fstep s e).cbCount h = s.cbCount h := by
  cases e with
  | schedFire h2 =>
    by_cases hc : 0 < s.sched ∧ h2 ∈ s.houses ∧ s.states h2 = .normal
    · have hne : h ≠ h2 := fun hh => hn (hh ▸ hc.2.2)
      simp [fstep, hc, FireSys.startFlame, FireSys.setState, hne, hn, ht]
    · simp [fstep, hc, hn, ht]
  | schedNoCandidate =>
    exact ⟨hn, ht, rfl⟩
  | timeout h2 =>
    by_cases hc : h2 ∈ s.timers
    · have hne : h ≠ h2 := fun hh => ht (hh ▸ hc)
      by_cases hburn : s.states h2 = .burning
      · simp [fstep, hc, hburn, FireSys.markDestroyed, FireSys.stopFlame,
          FireSys.setState, hne, hn, ht, List.mem_erase_of_ne hne]
      · simp [fstep, hc, hburn, hn, ht, List.mem_erase_of_ne hne]
    · simp [fstep, hc, hn, ht]
  | directStart h2 =>
    by_cases hh : h = h2
    · subst hh
      simp [fstep, FireSys.startFlame, FireSys.setState, ht]
    · simp [fstep, FireSys.startFlame, FireSys.setState, hh, hn, ht]
  | pointerPick h2 =>
    by_cases hc : h2 ∈ s.houses ∧ s.states h2 ≠ .destroyed
    · by_cases hh : h = h2
      · subst hh
        simp [fstep, hc, FireSys.startFlame, FireSys.setState, ht]
      · simp [fstep, hc, FireSys.startFlame, FireSys.setState, hh, hn, ht]
    · simp [fstep, hc, hn, ht]
  | extCall h2 =>
    by_cases hh : h = h2
    · subst hh
      simp [fstep, FireSys.extinguish, FireSys.stopFlame, FireSys.setState, ht]
    · simp [fstep, FireSys.extinguish, FireSys.stopFlame, FireSys.setState,
        hh, hn, ht]

/-- The stability of `fstep_stable` along any event sequence. -/
theorem runEvents_stable (h : Nat) :
    ∀ (evs : List FEvent) (s : FireSys),
      s.states h ≠ .normal → h ∉ s.timers →
      (runEvents s evs).states h ≠ .normal ∧ h ∉ (runEvents s evs).timers ∧
        (runEvents s evs).cbCount h = s.cbCount h := by
  intro evs
  induction evs with
  | nil => exact fun s hn ht => ⟨hn, ht, rfl⟩
  | cons e evs ih =>
    intro s hn ht
    have hstep := fstep_stable s e h hn ht
    have hrec := ih (fstep s e) hstep.1 hstep.2.1
    exact ⟨hrec.1, hrec.2.1, hrec.2.2.trans hstep.2.2⟩

/-- A burning house with no armed timer stays burning, with no armed timer,
under any event other than a scheduler ignition or an extinguish call
targeting it. -/
theorem fstep_burning_stable (s : FireSys) (e : FEvent) (h : Nat)
    (hb : s.states h = .burning) (ht : h ∉ s.timers)
    (he1 : e ≠ .schedFire h) (he2 : e ≠ .extCall h) :
    (fstep s e).states h = .burning ∧ h ∉ (fstep s e).timers := by
  cases e with
  | schedFire h2 =>
    have hne : h ≠ h2 := fun hh => he1 (by rw [hh])
    by_cases hc : 0 < s.sched ∧ h2 ∈ s.houses ∧ s.states h2 = .normal
    · simp [fstep, hc, FireSys.startFlame, FireSys.setState, hne, hb, ht]
    · simp [fstep, hc, hb, ht]
  | schedNoCandidate =>
    exact ⟨hb, ht⟩
  | timeout h2 =>
    by_cases hc : h2 ∈ s.timers
    · have hne : h ≠ h2 := fun hh => ht (hh ▸ hc)
      by_cases hburn : s.states h2 = .burning
      · simp [fstep, hc, hburn, FireSys.markDestroyed, FireSys.stopFlame,
          FireSys.setState, hne, hb, ht, List.mem_erase_of_ne hne]
      · simp [fstep, hc, hburn, hb, ht, List.mem_erase_of_ne hne]
    · simp [fstep, hc, hb, ht]
  | directStart h2 =>
    by_cases hh : h = h2
    · subst hh
      simp [fstep, FireSys.startFlame, FireSys.setState, ht]
    · simp [fstep, FireSys.startFlame, FireSys.setState, hh, hb, ht]
  | pointerPick h2 =>
    by_cases hc : h2 ∈ s.houses ∧ s.states h2 ≠ .destroyed
    · by_cases hh : h = h2
      · subst hh
        simp [fstep, hc, FireSys.startFlame, FireSys.setState, ht]
      · simp [fstep, hc, FireSys.startFlame, FireSys.setState, hh, hb, ht]
    · simp [fstep, hc, hb, ht]
  | extCall h2 =>
    have hne : h ≠ h2 := fun hh => he2 (by rw [hh])
    simp [fstep, FireSys.extinguish, FireSys.stopFlame, FireSys.setState,
      hne, hb, ht]

/-- `fstep_burning_stable` along any event sequence. -/
theorem runEvents_burning_stable (h : Nat) :
    ∀ (evs : List FEvent) (s : FireSys),
      s.states h = .burning → h ∉ s.timers →
      (∀ e ∈ evs, e ≠ .schedFire h ∧ e ≠ .extCall h) →
      (runEvents s evs).states h = .burning ∧ h ∉ (runEvents s evs).timers := by
  intro evs
  induction evs with
  | nil => exact fun s hb ht _ => ⟨hb, ht⟩
  | cons e evs ih =>
    intro s hb ht hevs
    have he := hevs e (List.mem_cons_self e evs)
    have hstep := fstep_burning_stable s e h hb ht he.1 he.2
    exact ih (fstep s e) hstep.1 hstep.2
      (fun e2 hem => hevs e2 (List.mem_cons_of_mem e hem))

/-- Claim C1 (corrected): the random-scheduler ignition only ever selects
buildings in the normal state and the pointer-pick handler refuses destroyed
buildings, so a destroyed building can return to burning only through an
unguarded direct startFlame call; but startFlame itself has no state guard,
so an extinguished building does re-enter burning under a pointer pick (see
the counterexample), contrary to the claim as stated. -/
theorem c1_destroyed_to_burning_only_direct (s : FireSys) (h : Nat) (e : FEvent)
    (hd : s.states h = .destroyed) (hb : (fstep s e).states h = .burning) :
    e = .directStart h := by
  cases e with
  | schedFire h2 =>
    exfalso
    by_cases hc : 0 < s.sched ∧ h2 ∈ s.houses ∧ s.states h2 = .normal
    · by_cases hh : h = h2
      · rw [hh] at hd
        rw [hd] at hc
        exact absurd hc.2.2 (by decide)
      · simp [fstep, hc, FireSys.startFlame, FireSys.setState, hh, hd] at hb
    · simp [fstep, hc, hd] at hb
  | schedNoCandidate =>
    exact absurd hb (by simp [fstep, hd])
  | timeout h2 =>
    exfalso
    by_cases hc : h2 ∈ s.timers
    · by_cases hburn : s.states h2 = .burning
      · by_cases hh : h = h2
        · rw [hh] at hd
          rw [hd] at hburn
          exact absurd hburn (by decide)
        · simp [fstep, hc, hburn, FireSys.markDestroyed, FireSys.stopFlame,
            FireSys.setState, hh, hd] at hb
      · simp [fstep, hc, hburn, hd] at hb
    · simp [fstep, hc, hd] at hb
  | directStart h2 =>
    by_cases hh : h = h2
    · rw [hh]
    · exfalso
      simp [fstep, FireSys.startFlame, FireSys.setState, hh, hd] at hb
  | pointerPick h2 =>
    exfalso
    by_cases hc : h2 ∈ s.houses ∧ s.states h2 ≠ .destroyed
    · by_cases hh : h = h2
      · exact hc.2 (hh ▸ hd)
      · simp [fstep, hc, FireSys.startFlame, FireSys.setState, hh, hd] at hb
    · simp [fstep, hc, hd] at hb
  | extCall h2 =>
    exfalso
    by_cases hh : h = h2
    · subst hh
      simp [fstep, FireSys.extinguish, FireSys.stopFlame, FireSys.setState] at hb
    · simp [fstep, FireSys.extinguish, FireSys.stopFlame, FireSys.setState,
        hh, hd] at hb

/-- Witness for C1: a destroyed building re-ignited by a direct startFlame
call, on which the theorem names the event. -/
theorem c1_witness :
    fsDesNorm.states 0 = .destroyed ∧
    (fstep fsDesNorm (.directStart 0)).states 0 = .burning ∧
    FEvent.directStart 0 = FEvent.directStart 0 :=
  ⟨by decide, by decide,
    c1_destroyed_to_burning_only_direct fsDesNorm 0 (.directStart 0)
      (by decide) (by decide)⟩

/-- Counterexample to C1 as stated: a building that has left burning for
extinguished is returned to burning by a pointer-pick ignition (the handler
only guards against destroyed). -/
theorem c1_counterexample :
    fsExt.states 0 = .extinguished ∧
    (fstep fsExt (.pointerPick 0)).states 0 = .burning := by
  decide

/-- Claim C2 (corrected): extinguish has no state guard in the source; on
any building, whatever its state (normal, burning, extinguished or
destroyed), it sets the state to extinguished and schedules one more random
ignition, so on a normal or destroyed building it is not a no-op. -/
theorem c2_extinguish_unconditional (s : FireSys) (h : Nat) :
    (fstep s (.extCall h)).states h = .extinguished ∧
    (fstep s (.extCall h)).sched = s.sched + 1 := by
  simp [fstep, FireSys.extinguish, FireSys.stopFlame, FireSys.setState]

/-- Witness for C2 at a concrete state. -/
theorem c2_witness :
    (fstep fsDesNorm (.extCall 0)).states 0 = .extinguished ∧
    (fstep fsDesNorm (.extCall 0)).sched = fsDesNorm.sched + 1 :=
  c2_extinguish_unconditional fsDesNorm 0

/-- Counterexample to C2 as stated: extinguish called on a destroyed
building and on a normal building changes their state fields. -/
theorem c2_counterexample :
    fsDesNorm.states 0 = .destroyed ∧
    (fstep fsDesNorm (.extCall 0)).states 0 ≠ .destroyed ∧
    fsDesNorm.states 1 = .normal ∧
    (fstep fsDesNorm (.extCall 1)).states 1 ≠ .normal := by
  decide

/-- Claim C3 (corrected): extinguishing a burning building with an armed
destruction timeout transitions it to extinguished and the destruction
callback never fires for it — but the timeout is not cancelled (no
clearTimeout exists in the scheduler): it stays armed, later fires finding
the building no longer burning, and schedules a second random ignition, so
two new ignitions get scheduled rather than exactly one. -/
theorem c3_extinguish_no_cancel (s : FireSys) (h : Nat)
    (hb : s.states h = .burning) (ht : s.timers = [h]) :
    ((fstep s (.extCall h)).states h = .extinguished ∧
     (fstep s (.extCall h)).timers = [h] ∧
     (fstep s (.extCall h)).sched = s.sched + 1 ∧
     (fstep s (.extCall h)).cbCount h = s.cbCount h) ∧
    ((runEvents s [.extCall h, .timeout h]).states h = .extinguished ∧
     (runEvents s [.extCall h, .timeout h]).cbCount h = s.cbCount h ∧
     (runEvents s [.extCall h, .timeout h]).sched = s.sched + 2 ∧
     (runEvents s [.extCall h, .timeout h]).timers = []) ∧
    (∀ evs, (runEvents (runEvents s [.extCall h, .timeout h]) evs).cbCount h
       = s.cbCount h) := by
  have h1 : fstep s (.extCall h) =
      { s with states := FireSys.setState s.states h .extinguished,
               current := if s.current = some h then none else s.current,
               sched := s.sched + 1 } := by
    simp [fstep, FireSys.extinguish, FireSys.stopFlame]
  have hs1 : (fstep s (.extCall h)).states h = .extinguished := by
    rw [h1]; simp [FireSys.setState]
  have h2 : runEvents s [.extCall h, .timeout h] =
      { s with states := FireSys.setState s.states h .extinguished,
               current := if s.current = some h then none else s.current,
               sched := s.sched + 2, timers := [] } := by
    show fstep (fstep s (.extCall h)) (.timeout h) = _
    rw [h1]
    have hmem : h ∈ s.timers := by rw [ht]; exact List.mem_singleton.mpr rfl
    simp only [fstep, ht]
    rw [if_pos (List.mem_singleton.mpr rfl)]
    simp [FireSys.setState, List.erase_cons_head]
  refine ⟨⟨hs1, by rw [h1]; exact ht, by rw [h1], by rw [h1]⟩,
          ⟨by rw [h2]; simp [FireSys.setState], by rw [h2], by rw [h2],
           by rw [h2]⟩, ?_⟩
  intro evs
  have hstab := runEvents_stable h evs (runEvents s [.extCall h, .timeout h])
    (by rw [h2]; simp [FireSys.setState]) (by rw [h2]; simp)
  rw [hstab.2.2, h2]

/-- Witness for C3 at a concrete burning building with an armed timeout. -/
theorem c3_witness :
    fsBurn.states 0 = .burning ∧ fsBurn.timers = [0] ∧
    (fstep fsBurn (.extCall 0)).timers = [0] ∧
    (runEvents fsBurn [.extCall 0, .timeout 0]).cbCount 0 = fsBurn.cbCount 0 ∧
    (runEvents (runEvents fsBurn [.extCall 0, .timeout 0])
       [.schedFire 0, .pointerPick 0, .timeout 0]).cbCount 0
      = fsBurn.cbCount 0 :=
  ⟨by decide, by decide,
   (c3_extinguish_no_cancel fsBurn 0 (by decide) (by decide)).1.2.1,
   (c3_extinguish_no_cancel fsBurn 0 (by decide) (by decide)).2.1.2.1,
   (c3_extinguish_no_cancel fsBurn 0 (by decide) (by decide)).2.2
     [.schedFire 0, .pointerPick 0, .timeout 0]⟩

/-- Counterexample to C3 as stated: after extinguish the destruction timeout
is still armed (not cancelled), and after it fires the pending random
ignition count is 2, not exactly 1. -/
theorem c3_counterexample :
    (fstep fsBurn (.extCall 0)).timers = [0] ∧
    (runEvents fsBurn [.extCall 0, .timeout 0]).sched = 2 ∧
    fsBurn.sched = 0 := by
  decide

/-- Claim C10 (confirmed): a building ignited through the direct startFlame
path has no destruction timeout armed (only the scheduler ignition arms
one), so under any further events that include neither a scheduler ignition
of this building nor an extinguish call on it, it stays burning with no
armed timeout — it never transitions to destroyed. -/
theorem c10_direct_ignition_no_timer (s : FireSys) (h : Nat) (evs : List FEvent)
    (ht : h ∉ s.timers)
    (hevs : ∀ e ∈ evs, e ≠ .schedFire h ∧ e ≠ .extCall h) :
    (runEvents (fstep s (.directStart h)) evs).states h = .burning ∧
    h ∉ (runEvents (fstep s (.directStart h)) evs).timers := by
  have h1 : (fstep s (.directStart h)).states h = .burning := by
    simp [fstep, FireSys.startFlame, FireSys.setState]
  have h2 : h ∉ (fstep s (.directStart h)).timers := by
    simpa [fstep, FireSys.startFlame] using ht
  exact runEvents_burning_stable h evs (fstep s (.directStart h)) h1 h2 hevs

/-- Witness for C10: a concrete directly-ignited building stays burning
across scheduler activity on other buildings, a pointer re-pick, and a
spurious timeout. -/
theorem c10_witness :
    (0 ∉ fsAllNormal.timers) ∧
    (runEvents (fstep fsAllNormal (.directStart 0))
       [.schedFire 1, .timeout 0, .timeout 1, .pointerPick 0, .schedNoCandidate]).states 0
      = .burning :=
  ⟨by decide,
   (c10_direct_ignition_no_timer fsAllNormal 0
      [.schedFire 1, .timeout 0, .timeout 1, .pointerPick 0, .schedNoCandidate]
      (by decide) (by decide)).1⟩

/-! Street generator: shape of every generated road. -/

/-- Every generated road has the exact local frame of a 0 or 90 degree yaw,
width equal to the major or minor width, and the half extents derived from
its width and the common length. -/
theorem mem_genRoads_shape (extent mjs mns mjw mnw : ℚ) (r : Road)
    (hr : r ∈ genRoads extent mjs mns mjw mnw) :
    ((r.cos = 0 ∧ r.sin = 1) ∨ (r.cos = 1 ∧ r.sin = 0)) ∧
    (r.width = mjw ∨ r.width = mnw) ∧
    r.halfW = r.width / 2 ∧ r.halfL = (extent * 2 + 2) / 2 := by
  simp only [genRoads, List.mem_append, List.mem_map] at hr
  rcases hr with ⟨x, _, rfl⟩ | ⟨z, _, rfl⟩
  · refine ⟨Or.inl ⟨rfl, rfl⟩, ?_, rfl, rfl⟩
    cases isMajorCoord mjs x <;> simp [mkVRoad]
  · refine ⟨Or.inr ⟨rfl, rfl⟩, ?_, rfl, rfl⟩
    cases isMajorCoord mjs z <;> simp [mkHRoad]

/-- Claim C5 (corrected): for every generated road, the exact road center is
reported on-road (both by that road itself and by the any-road test), and the
point at halfWidth + eps perpendicular offset from the center lies outside
that road itself — but the any-road test can still report such a point
on-road, because the offset point can fall inside a crossing road of the
grid (see the counterexample). -/
theorem c5_center_on_offset_off (extent mjs mns mjw mnw ε : ℚ) (r : Road)
    (hr : r ∈ genRoads extent mjs mns mjw mnw)
    (hmjw : 0 ≤ mjw) (hmnw : 0 ≤ mnw) (hext : 0 ≤ extent) (hε : 0 < ε) :
    roadContains r r.centerX r.centerZ = true ∧
    isPointOnAnyRoad (genRoads extent mjs mns mjw mnw) r.centerX r.centerZ = true ∧
    roadContains r (perpOffset r (r.halfW + ε)).1 (perpOffset r (r.halfW + ε)).2
      = false := by
  obtain ⟨hcs, hw, hhw, hhl⟩ := mem_genRoads_shape extent mjs mns mjw mnw r hr
  have hw0 : 0 ≤ r.width := by rcases hw with h | h <;> rw [h] <;> assumption
  have hhw0 : 0 ≤ r.halfW := by rw [hhw]; linarith
  have hhl0 : 0 ≤ r.halfL := by rw [hhl]; linarith
  have hcenter : roadContains r r.centerX r.centerZ = true := by
    simp only [roadContains, roadLocal, decide_eq_true_eq]
    constructor <;> simp [hhl0, hhw0]
  refine ⟨hcenter, ?_, ?_⟩
  · simp only [isPointOnAnyRoad, List.any_eq_true]
    exact ⟨r, hr, hcenter⟩
  · simp only [roadContains, roadLocal, perpOffset, decide_eq_false_iff_not]
    intro hcon
    have habs := hcon.2
    have hd0 : 0 ≤ r.halfW + ε := by linarith
    rcases hcs with ⟨hc, hs⟩ | ⟨hc, hs⟩
    · rw [hc, hs] at habs
      have he : -(r.centerX - (r.halfW + ε) * 1 - r.centerX) * 1 +
          (r.centerZ + (r.halfW + ε) * 0 - r.centerZ) * 0 = r.halfW + ε := by
        ring
      rw [he, abs_of_nonneg hd0] at habs
      linarith
    · rw [hc, hs] at habs
      have he : -(r.centerX - (r.halfW + ε) * 0 - r.centerX) * 0 +
          (r.centerZ + (r.halfW + ε) * 1 - r.centerZ) * 1 = r.halfW + ε := by
        ring
      rw [he, abs_of_nonneg hd0] at habs
      linarith

/-- Witness for C5 at a concrete generated grid and road. -/
theorem c5_witness :
    vRoad0 ∈ roadsFix ∧ (0 : ℚ) < 1 ∧
    roadContains vRoad0 vRoad0.centerX vRoad0.centerZ = true ∧
    isPointOnAnyRoad roadsFix vRoad0.centerX vRoad0.centerZ = true ∧
    roadContains vRoad0 (perpOffset vRoad0 (vRoad0.halfW + 1)).1
      (perpOffset vRoad0 (vRoad0.halfW + 1)).2 = false :=
  ⟨by decide, by decide,
   (c5_center_on_offset_off 10 10 10 4 4 1 vRoad0 (by decide) (by norm_num)
      (by norm_num) (by norm_num) (by norm_num)).1,
   (c5_center_on_offset_off 10 10 10 4 4 1 vRoad0 (by decide) (by norm_num)
      (by norm_num) (by norm_num) (by norm_num)).2.1,
   (c5_center_on_offset_off 10 10 10 4 4 1 vRoad0 (by decide) (by norm_num)
      (by norm_num) (by norm_num) (by norm_num)).2.2⟩

/-- Counterexample to C5 as stated: the perpendicular offset point at
halfWidth + 1 from the center of the vertical road through x = 0 is outside
that road, yet isPointOnAnyRoad reports it on-road — it lies inside the
crossing horizontal road through z = 0. -/
theorem c5_counterexample :
    vRoad0 ∈ roadsFix ∧
    perpOffset vRoad0 (vRoad0.halfW + 1) = (-3, 0) ∧
    roadContains vRoad0 (-3) 0 = false ∧
    isPointOnAnyRoad roadsFix (-3) 0 = true := by
  decide

/-- Claim C4 (corrected): road generation consumes no randomness at all, and
for any NONZERO seed the placement pass is a pure function of the seed and
parameters — two runs with the same seed and parameters yield identical road
sets and identical building placements whatever the ambient entropy.  The
seed 0, however, is falsy in JS: `options.seed || ...` replaces it by a
random fallback seed, so two runs with seed 0 need not match (see the
counterexample). -/
theorem c4_world_determinism (e1 e2 s : Nat) (hs : s ≠ 0)
    (extent mjs mns mjw mnw : ℚ) (maxH : ℕ) :
    worldGen e1 (some s) extent mjs mns mjw mnw maxH
      = worldGen e2 (some s) extent mjs mns mjw mnw maxH := by
  unfold worldGen placeHouses usedSeed
  simp [hs]

/-- Witness for C4: two runs with seed 42 and different ambient entropy
agree on a concrete parameter set. -/
theorem c4_witness :
    (42 : Nat) ≠ 0 ∧
    worldGen 0 (some 42) 1 5 5 2 2 20 = worldGen 1 (some 42) 1 5 5 2 2 20 :=
  ⟨by decide, c4_world_determinism 0 1 42 (by decide) 1 5 5 2 2 20⟩

/-- Counterexample to C4 as stated: with the integer seed 0 the generator
falls back to ambient entropy, and two runs (entropy values 0 and 1) produce
different building placements. -/
theorem c4_counterexample :
    worldGen 0 (some 0) 1 5 5 2 2 20 ≠ worldGen 1 (some 0) 1 5 5 2 2 20 := by
  decide

/-- Claim C6 (confirmed): with target speed 0 and positive elapsed time,
each tick strictly decreases any positive current speed (in both the turning
and the straight branch), and from any nonnegative speed and target the
updated speed never goes negative. -/
theorem c6_speed_decreases_to_zero {α : Type} [LinearOrderedField α]
    (s t st m dt : α) (hdt : 0 < dt) :
    ((0 < s ∧ t = 0) → feSpeed s t st m dt < s) ∧
    ((0 ≤ s ∧ 0 ≤ t) → 0 ≤ feSpeed s t st m dt) := by
  simp only [feSpeed, clampV]
  by_cases hturn : 1 / 20 < |st / m|
  · rw [if_pos hturn]
    have hsa : 0 < |st / m| := lt_trans (by norm_num) hturn
    constructor
    · rintro ⟨hs, rfl⟩
      have hs1lt : max 0 (s - |st / m| * 2 * dt) < s :=
        max_lt hs (by nlinarith)
      by_cases hb : (0 : α) < max 0 (s - |st / m| * 2 * dt)
      · rw [if_pos hb]
        have hle := min_le_left (0 : α)
          (max (-9 * dt) (0 - max 0 (s - |st / m| * 2 * dt)))
        linarith
      · rw [if_neg hb]
        exact hs1lt
    · rintro ⟨hs0, ht0⟩
      have hs1 : (0 : α) ≤ max 0 (s - |st / m| * 2 * dt) := le_max_left _ _
      by_cases hb : t < max 0 (s - |st / m| * 2 * dt)
      · rw [if_pos hb]
        have hM : t - max 0 (s - |st / m| * 2 * dt) ≤
            max (-9 * dt) (t - max 0 (s - |st / m| * 2 * dt)) := le_max_right _ _
        rcases min_choice (0 : α)
            (max (-9 * dt) (t - max 0 (s - |st / m| * 2 * dt))) with h | h <;>
          rw [h] <;> linarith
      · rw [if_neg hb]
        exact hs1
  · rw [if_neg hturn]
    constructor
    · rintro ⟨hs, rfl⟩
      rw [if_pos (by linarith : (0 : α) - s < 0)]
      have h1 : max (-9 * dt) (0 - s) < 0 := max_lt (by nlinarith) (by linarith)
      have h2 := min_le_right ((9 : α) * dt) (max (-9 * dt) (0 - s))
      linarith
    · rintro ⟨hs0, ht0⟩
      by_cases hd : t - s < 0
      · rw [if_pos hd]
        have hM : t - s ≤ max (-9 * dt) (t - s) := le_max_right _ _
        rcases min_choice ((9 : α) * dt) (max (-9 * dt) (t - s)) with h | h <;>
          rw [h] <;> nlinarith
      · rw [if_neg hd]
        have hM : t - s ≤ max (-6 * dt) (t - s) := le_max_right _ _
        rcases min_choice ((6 : α) * dt) (max (-6 * dt) (t - s)) with h | h <;>
          rw [h] <;> nlinarith

/-- Witness for C6 at a concrete braking tick over the rationals. -/
theorem c6_witness :
    (0 : ℚ) < 1 ∧ feSpeed (4 : ℚ) 0 0 1 1 < 4 ∧ 0 ≤ feSpeed (4 : ℚ) 0 0 1 1 :=
  ⟨by norm_num,
   (c6_speed_decreases_to_zero 4 0 0 1 1 (by norm_num)).1 ⟨by norm_num, rfl⟩,
   (c6_speed_decreases_to_zero 4 0 0 1 1 (by norm_num)).2 ⟨by norm_num, le_refl 0⟩⟩

/-! Collision resolution helpers. -/

/-- The restitution component of any resolved collision: the outgoing speed
is exactly 0.7 times the incoming speed. -/
theorem resolve_speed (b : CHouse) (px pz speed heading px' pz' s' h' : ℝ)
    (hres : resolveCollision b px pz speed heading = some ((px', pz'), s', h')) :
    s' = speed * (7 / 10) := by
  simp only [resolveCollision] at hres
  split at hres
  · simp only [Option.some.injEq, Prod.mk.injEq] at hres
    exact hres.2.1.symm
  · exact absurd hres (by simp)

/-- One clamped coordinate of the push-out: moving away from the clamp point
along the outward component keeps at least that component of distance to any
coordinate inside the slab. -/
theorem clamp_coord_sep (lo hi p q A : ℝ) (hq1 : lo ≤ q) (hq2 : q ≤ hi)
    (hA : 0 < A) :
    (A * (p - max lo (min p hi))) ^ 2
      ≤ (max lo (min p hi) + A * (p - max lo (min p hi)) - q) ^ 2 := by
  set c := max lo (min p hi) with hc
  have hmaxc : c = lo ∨ c = min p hi := by
    rw [hc]
    exact max_choice lo (min p hi)
  have hminc : min p hi = p ∨ min p hi = hi := min_choice p hi
  have hmc : min p hi ≤ c := by
    rw [hc]
    exact le_max_right _ _
  have hmp : min p hi ≤ p := min_le_left _ _
  rcases lt_trichotomy (p - c) 0 with hd | hd | hd
  · have hcl : c = lo := by
      rcases hmaxc with h | h
      · exact h
      · exfalso
        rw [← h] at hmp
        linarith
    have hcq : c ≤ q := hcl ▸ hq1
    have hAd : A * (p - c) < 0 := mul_neg_of_pos_of_neg hA hd
    nlinarith [mul_nonneg (by linarith : (0 : ℝ) ≤ q - c)
      (by linarith : (0 : ℝ) ≤ q - c - 2 * (A * (p - c)))]
  · rw [hd]
    simpa using sq_nonneg (c + A * 0 - q)
  · have hch : c = hi := by
      rcases hminc with m | m
      · exfalso
        rw [m] at hmc
        linarith
      · rcases hmaxc with h | h
        · rw [m] at hmc
          have hlohi : lo ≤ hi := le_trans hq1 hq2
          rw [h]
          rw [h] at hmc
          linarith
        · rw [h, m]
    have hcq : q ≤ c := hch ▸ hq2
    have hAd : 0 < A * (p - c) := mul_pos hA hd
    nlinarith [mul_nonneg (by linarith : (0 : ℝ) ≤ c - q)
      (by linarith : (0 : ℝ) ≤ c - q + 2 * (A * (p - c)))]

/-- In the non-degenerate branch (closest-point distance at least 1e-3,
i.e. its square at least 1e-6) the resolved position is at distance at
least the collision radius from every point of the bounding box. -/
theorem resolve_separation (b : CHouse) (px pz speed heading px' pz' s' h' : ℝ)
    (hres : resolveCollision b px pz speed heading = some ((px', pz'), s', h'))
    (hfar : 1 / 1000000 ≤
      (px - max b.minX (min px b.maxX)) * (px - max b.minX (min px b.maxX))
        + (pz - max b.minZ (min pz b.maxZ)) * (pz - max b.minZ (min pz b.maxZ)))
    (qx qz : ℝ) (hq1 : b.minX ≤ qx) (hq2 : qx ≤ b.maxX)
    (hq3 : b.minZ ≤ qz) (hq4 : qz ≤ b.maxZ) :
    engineRadius ^ 2 ≤ (px' - qx) ^ 2 + (pz' - qz) ^ 2 := by
  simp only [resolveCollision, engineRadius] at hres ⊢
  set cX := max b.minX (min px b.maxX) with hcX
  set cZ := max b.minZ (min pz b.maxZ) with hcZ
  set dX := px - cX with hdX
  set dZ := pz - cZ with hdZ
  set dSq := dX * dX + dZ * dZ with hdSq
  have hpos : 0 < dSq := lt_of_lt_of_le (by norm_num) hfar
  set dist := Real.sqrt dSq with hdist
  have hdistpos : 0 < dist := Real.sqrt_pos.mpr hpos
  have hdist2 : dist ^ 2 = dSq := Real.sq_sqrt hpos.le
  have hnl : ¬ dist < 1 / 1000 := by
    intro hlt
    have h2 : dist ^ 2 < (1 / 1000 : ℝ) ^ 2 := by nlinarith
    rw [hdist2] at h2
    norm_num at h2
    linarith
  by_cases h9 : dSq < 3 * 3
  · rw [if_pos h9, if_neg hnl] at hres
    simp only [Option.some.injEq, Prod.mk.injEq] at hres
    obtain ⟨⟨hpx, hpz⟩, _, _⟩ := hres
    have hpxe : px + dX / dist * (3 - dist) = cX + 3 / dist * dX := by
      rw [hdX]
      field_simp
      ring
    have hpze : pz + dZ / dist * (3 - dist) = cZ + 3 / dist * dZ := by
      rw [hdZ]
      field_simp
      ring
    have hX := clamp_coord_sep b.minX b.maxX px qx (3 / dist) hq1 hq2
      (by positivity)
    have hZ := clamp_coord_sep b.minZ b.maxZ pz qz (3 / dist) hq3 hq4
      (by positivity)
    rw [← hcX, ← hdX] at hX
    rw [← hcZ, ← hdZ] at hZ
    have hsum : (3 / dist) ^ 2 * dSq = 9 := by
      rw [div_pow, hdist2]
      field_simp
      norm_num
    have hgoal1 : (px' - qx) ^ 2 = (cX + 3 / dist * dX - qx) ^ 2 := by
      rw [← hpx, hpxe]
    have hgoal2 : (pz' - qz) ^ 2 = (cZ + 3 / dist * dZ - qz) ^ 2 := by
      rw [← hpz, hpze]
    rw [hgoal1, hgoal2]
    have hexp : (3 / dist * dX) ^ 2 + (3 / dist * dZ) ^ 2
        = (3 / dist) ^ 2 * dSq := by
      rw [hdSq]
      ring
    have hnine : (3 / dist * dX) ^ 2 + (3 / dist * dZ) ^ 2 = 9 :=
      hexp.trans hsum
    have h32 : (3 : ℝ) ^ 2 = 9 := by norm_num
    rw [h32]
    linarith [hX, hZ, hnine]
  · rw [if_neg h9] at hres
    exact absurd hres (by simp)

/-- The collision loop resolves at most one collision per tick: it stops at
the first one. -/
theorem collisionPass_le_one :
    ∀ (houses : List CHouse) (px pz speed heading : ℝ),
      (collisionPass px pz speed heading houses).2 ≤ 1 := by
  intro houses
  induction houses with
  | nil => intro px pz speed heading; simp [collisionPass]
  | cons b bs ih =>
    intro px pz speed heading
    simp only [collisionPass]
    split
    · exact ih px pz speed heading
    · cases hcase : resolveCollision b px pz speed heading with
      | none => exact ih px pz speed heading
      | some r => simp

/-- Claim C7 (corrected): when a collision with a non-destroyed building is
resolved, the outgoing speed equals (hence is at most) 0.7 times the
incoming speed, and at most one collision is resolved per tick; the resolved
position lies outside the bounding box by at least the collision radius in
the regular branch (closest-point distance at least the 1e-3 degeneracy
cutoff) — but NOT in the degenerate branch, where the push-out uses the
heading direction and can leave the vehicle inside the box (see the
counterexample). -/
theorem c7_collision_bounce (b : CHouse) (px pz speed heading px' pz' s' h' : ℝ)
    (hres : resolveCollision b px pz speed heading = some ((px', pz'), s', h')) :
    s' ≤ speed * (7 / 10) ∧
    ((1 / 1000000 ≤
        (px - max b.minX (min px b.maxX)) * (px - max b.minX (min px b.maxX))
          + (pz - max b.minZ (min pz b.maxZ)) * (pz - max b.minZ (min pz b.maxZ))) →
      ∀ qx qz, b.minX ≤ qx → qx ≤ b.maxX → b.minZ ≤ qz → qz ≤ b.maxZ →
        engineRadius ^ 2 ≤ (px' - qx) ^ 2 + (pz' - qz) ^ 2) ∧
    (∀ (houses : List CHouse) (px0 pz0 sp hd : ℝ),
      (collisionPass px0 pz0 sp hd houses).2 ≤ 1) :=
  ⟨le_of_eq (resolve_speed b px pz speed heading px' pz' s' h' hres),
   fun hfar qx qz hq1 hq2 hq3 hq4 =>
     resolve_separation b px pz speed heading px' pz' s' h' hres hfar
       qx qz hq1 hq2 hq3 hq4,
   fun houses px0 pz0 sp hd => collisionPass_le_one houses px0 pz0 sp hd⟩

/-- Witness for C7: a concrete resolved collision (vehicle at (0,2) against
the unit box, approaching head-on) lands at (0,4), at distance exactly the
collision radius from the box, with speed 7 = 10 * 0.7. -/
theorem c7_witness :
    resolveCollision cHouseFix 0 2 10 0 = some ((0, 4), 7, Real.pi) ∧
    (7 : ℝ) ≤ 10 * (7 / 10) ∧
    engineRadius ^ 2 ≤ ((0 : ℝ) - 1) ^ 2 + ((4 : ℝ) - 1) ^ 2 ∧
    (collisionPass 0 2 10 0 [cHouseFix]).2 ≤ 1 := by
  have hres : resolveCollision cHouseFix 0 2 10 0 = some ((0, 4), 7, Real.pi) := by
    simp only [resolveCollision, cHouseFix, engineRadius]
    norm_num [min_def, max_def, Real.sqrt_one, jatan2, Real.sin_zero,
      Real.cos_zero, Real.arctan_zero]
  have happ := c7_collision_bounce cHouseFix 0 2 10 0 0 4 7 Real.pi hres
  refine ⟨hres, happ.1, ?_, happ.2.2 [cHouseFix] 0 2 10 0⟩
  have hsep := happ.2.1 (by norm_num [cHouseFix, min_def, max_def]) 1 1
    (by norm_num [cHouseFix]) (by norm_num [cHouseFix])
    (by norm_num [cHouseFix]) (by norm_num [cHouseFix])
  exact hsep

/-- Counterexample to C7 as stated: with the vehicle at the center of a
large building (closest point degenerate), the push-out uses the heading
direction and the resolved position (5,8) is still INSIDE the bounding box
[0,10] x [0,10] — not outside it by the collision radius. -/
theorem c7_counterexample :
    resolveCollision cHouseBig 5 5 10 0 = some ((5, 8), 7, Real.pi) ∧
    cHouseBig.minX ≤ 5 ∧ (5 : ℝ) ≤ cHouseBig.maxX ∧
    cHouseBig.minZ ≤ 8 ∧ (8 : ℝ) ≤ cHouseBig.maxZ := by
  refine ⟨?_, by norm_num [cHouseBig], by norm_num [cHouseBig],
    by norm_num [cHouseBig], by norm_num [cHouseBig]⟩
  simp only [resolveCollision, cHouseBig, engineRadius]
  norm_num [min_def, max_def, Real.sqrt_zero, jatan2, Real.sin_zero,
    Real.cos_zero, Real.arctan_zero]

/-! Mission dispatch scan. -/

/-- Unfolding equation of the burning-house scan. -/
theorem scanNearest_cons (ex ey ez fx fz : ℝ) (h : MHouse) (hs : List MHouse)
    (acc : Option (MHouse × ℝ)) :
    scanNearest ex ey ez fx fz (h :: hs) acc =
      scanNearest ex ey ez fx fz hs
        (if h.state = .burning ∧ -(1 / 2) < coneDot ex ey ez fx fz h ∧
            accBetter (dTo ex ey ez h) acc
          then some (h, dTo ex ey ez h) else acc) := by
  cases acc <;> rfl

/-- A failed nearest-update against an accumulator means the accumulator is
an entry at most as far away. -/
theorem accBetter_cases (o : Option (MHouse × ℝ)) (d : ℝ)
    (hno : ¬ accBetter d o) : ∃ p, o = some p ∧ p.2 ≤ d := by
  cases o with
  | none => exact absurd (by simp [accBetter]) hno
  | some p => exact ⟨p, rfl, not_lt.mp (by simpa [accBetter] using hno)⟩

/-- Specification of the scan: any returned entry carries its true distance
and is either the incoming accumulator or a qualifying house of the list;
whenever a qualifying house exists the scan returns an entry at most that
far away; and the scan never returns an entry farther than the incoming
accumulator. -/
theorem scanNearest_spec (ex ey ez fx fz : ℝ) :
    ∀ (hs : List MHouse) (acc : Option (MHouse × ℝ)),
      (∀ a da, acc = some (a, da) → da = dTo ex ey ez a) →
      ((∀ a da, scanNearest ex ey ez fx fz hs acc = some (a, da) →
          da = dTo ex ey ez a ∧
          (acc = some (a, da) ∨ (a ∈ hs ∧ qualifiesFor ex ey ez fx fz a))) ∧
       (∀ h2 ∈ hs, qualifiesFor ex ey ez fx fz h2 →
          ∃ a da, scanNearest ex ey ez fx fz hs acc = some (a, da) ∧
            da ≤ dTo ex ey ez h2) ∧
       (∀ a0 da0, acc = some (a0, da0) →
          ∃ a da, scanNearest ex ey ez fx fz hs acc = some (a, da) ∧
            da ≤ da0)) := by
  intro hs
  induction hs with
  | nil =>
    intro acc hacc
    simp only [scanNearest]
    refine ⟨?_, ?_, ?_⟩
    · intro a da hval
      exact ⟨hacc a da hval, Or.inl hval⟩
    · intro h2 hh2
      exact absurd hh2 (List.not_mem_nil h2)
    · intro a0 da0 hacc0
      exact ⟨a0, da0, hacc0, le_refl _⟩
  | cons h hs ih =>
    intro acc hacc
    rw [scanNearest_cons]
    by_cases hcond : h.state = .burning ∧ -(1 / 2) < coneDot ex ey ez fx fz h ∧
        accBetter (dTo ex ey ez h) acc
    · rw [if_pos hcond]
      have hacc1 : ∀ a da,
          (some (h, dTo ex ey ez h) : Option (MHouse × ℝ)) = some (a, da) →
          da = dTo ex ey ez a := by
        intro a da hv
        simp only [Option.some.injEq, Prod.mk.injEq] at hv
        obtain ⟨rfl, rfl⟩ := hv
        rfl
      obtain ⟨ih1, ih2, ih3⟩ := ih (some (h, dTo ex ey ez h)) hacc1
      refine ⟨?_, ?_, ?_⟩
      · intro a da hval
        obtain ⟨hda, hform⟩ := ih1 a da hval
        refine ⟨hda, ?_⟩
        rcases hform with hacc2 | ⟨hmem, hq⟩
        · simp only [Option.some.injEq, Prod.mk.injEq] at hacc2
          right
          refine ⟨?_, ?_⟩
          · rw [← hacc2.1]
            exact List.mem_cons_self _ _
          · rw [← hacc2.1]
            exact ⟨hcond.1, hcond.2.1⟩
        · exact Or.inr ⟨List.mem_cons_of_mem _ hmem, hq⟩
      · intro h2 hh2 hq2
        rcases List.mem_cons.mp hh2 with rfl | hh2m
        · exact ih3 h2 (dTo ex ey ez h2) rfl
        · exact ih2 h2 hh2m hq2
      · intro a0 da0 hacc0
        have hlt : dTo ex ey ez h < da0 := by
          have hb := hcond.2.2
          rw [hacc0] at hb
          simpa [accBetter] using hb
        obtain ⟨a, da, hval, hle⟩ := ih3 h (dTo ex ey ez h) rfl
        exact ⟨a, da, hval, le_trans hle (le_of_lt hlt)⟩
    · rw [if_neg hcond]
      obtain ⟨ih1, ih2, ih3⟩ := ih acc hacc
      refine ⟨?_, ?_, ?_⟩
      · intro a da hval
        obtain ⟨hda, hform⟩ := ih1 a da hval
        refine ⟨hda, ?_⟩
        rcases hform with hacc2 | ⟨hmem, hq⟩
        · exact Or.inl hacc2
        · exact Or.inr ⟨List.mem_cons_of_mem _ hmem, hq⟩
      · intro h2 hh2 hq2
        rcases List.mem_cons.mp hh2 with rfl | hh2m
        · have hno : ¬ accBetter (dTo ex ey ez h2) acc :=
            fun hb => hcond ⟨hq2.1, hq2.2, hb⟩
          obtain ⟨p, hpe, hple⟩ := accBetter_cases acc (dTo ex ey ez h2) hno
          obtain ⟨a, da, hval, hle⟩ := ih3 p.1 p.2 (by rw [hpe])
          exact ⟨a, da, hval, le_trans hle hple⟩
        · exact ih2 h2 hh2m hq2
      · intro a0 da0 hacc0
        exact ih3 a0 da0 hacc0

/-- With the vehicle stopped, the gate unlocked, the flag clear, the drone
loaded and the scan returning a house, the Driving branch dispatches. -/
theorem drivingStep_dispatch_eq (g : Game) (speed ex ey ez heading : ℝ)
    (houses : List MHouse) (dl : Bool) (a : MHouse) (da : ℝ)
    (hmode : g.mode = .Driving) (hsp : speed = 0)
    (hdisp : g.hasDispatchedDrone = false)
    (hgate : g.hasExceeded10MPH = true) (hdl : dl = true)
    (hscan : scanNearest ex ey ez (Real.sin heading) (Real.cos heading)
      houses none = some (a, da)) :
    drivingStep g speed ex ey ez heading houses dl =
      { g with mode := .FlyingToFire, activeHouse := some a.id,
               droneTargetPos := some (a.px,
                 a.bbMaxY + max 5 ((a.bbMaxY - a.bbMinY) * (1 / 2)), a.pz),
               hasDispatchedDrone := true } := by
  simp only [drivingStep]
  rw [if_pos hmode]
  rw [if_neg (show ¬(g.hasExceeded10MPH = false ∧ 10 ≤ speed) by
    rw [hgate]; simp)]
  rw [if_pos (show speed = 0 ∧ g.hasDispatchedDrone = false ∧
      g.hasExceeded10MPH = true from ⟨hsp, hdisp, hgate⟩)]
  rw [hscan]
  simp [hdl, hsp]

/-- Once the vehicle moves again, the Driving branch clears the per-stop
dispatch flag. -/
theorem drivingStep_moving_clears (g : Game) (speed ex ey ez heading : ℝ)
    (houses : List MHouse) (dl : Bool)
    (hmode : g.mode = .Driving) (hsp : ¬ speed = 0) :
    (drivingStep g speed ex ey ez heading houses dl).hasDispatchedDrone
      = false := by
  simp only [drivingStep]
  rw [if_pos hmode]
  set g1 : Game := if g.hasExceeded10MPH = false ∧ 10 ≤ speed
      then { g with hasExceeded10MPH := true } else g with hg1def
  rw [if_neg (show ¬(speed = 0 ∧ g1.hasDispatchedDrone = false ∧
      g1.hasExceeded10MPH = true) from fun hc => hsp hc.1)]
  by_cases hg1 : g1.hasDispatchedDrone = true
  · rw [if_pos (show ¬speed = 0 ∧ g1.hasDispatchedDrone = true
      from ⟨hsp, hg1⟩)]
  · rw [if_neg (show ¬(¬speed = 0 ∧ g1.hasDispatchedDrone = true)
      from fun hc => hg1 hc.2)]
    simpa using hg1

/-- Claim C8 (corrected): from Driving, with the vehicle stopped, the
one-time 10 mph capability gate satisfied, the per-stop dispatch flag clear,
the drone AND its water system loaded (a condition the claim omits), and at
least one burning building in the forward cone, the mode becomes
FlyingToFire with the active target set to a nearest such building and the
dispatch flag set; and whenever the vehicle moves again in Driving mode the
dispatch flag is cleared. -/
theorem c8_dispatch (g : Game) (speed ex ey ez heading : ℝ)
    (houses : List MHouse) (dl : Bool) (hmode : g.mode = .Driving) :
    ((speed = 0 ∧ g.hasDispatchedDrone = false ∧ g.hasExceeded10MPH = true ∧
      dl = true ∧
      ∃ h0 ∈ houses,
        qualifiesFor ex ey ez (Real.sin heading) (Real.cos heading) h0) →
      ∃ h ∈ houses,
        qualifiesFor ex ey ez (Real.sin heading) (Real.cos heading) h ∧
        (∀ h2 ∈ houses,
          qualifiesFor ex ey ez (Real.sin heading) (Real.cos heading) h2 →
          dTo ex ey ez h ≤ dTo ex ey ez h2) ∧
        (drivingStep g speed ex ey ez heading houses dl).mode = .FlyingToFire ∧
        (drivingStep g speed ex ey ez heading houses dl).activeHouse
          = some h.id ∧
        (drivingStep g speed ex ey ez heading houses dl).hasDispatchedDrone
          = true) ∧
    (¬ speed = 0 →
      (drivingStep g speed ex ey ez heading houses dl).hasDispatchedDrone
        = false) := by
  constructor
  · rintro ⟨hsp, hdisp, hgate, hdl, h0, hh0, hq0⟩
    obtain ⟨hi1, hi2, _⟩ := scanNearest_spec ex ey ez (Real.sin heading)
      (Real.cos heading) houses none (by intro a da hv; cases hv)
    obtain ⟨a, da, hscan, _⟩ := hi2 h0 hh0 hq0
    obtain ⟨hda, hform⟩ := hi1 a da hscan
    rcases hform with hacc | ⟨hmem, hq⟩
    · cases hacc
    · refine ⟨a, hmem, hq, ?_, ?_, ?_, ?_⟩
      · intro h2 hh2 hq2
        obtain ⟨a2, da2, hscan2, hle2⟩ := hi2 h2 hh2 hq2
        rw [hscan] at hscan2
        simp only [Option.some.injEq, Prod.mk.injEq] at hscan2
        rw [← hda, hscan2.2]
        exact hle2
      · rw [drivingStep_dispatch_eq g speed ex ey ez heading houses dl a da
          hmode hsp hdisp hgate hdl hscan]
      · rw [drivingStep_dispatch_eq g speed ex ey ez heading houses dl a da
          hmode hsp hdisp hgate hdl hscan]
      · rw [drivingStep_dispatch_eq g speed ex ey ez heading houses dl a da
          hmode hsp hdisp hgate hdl hscan]
  · intro hsp
    exact drivingStep_moving_clears g speed ex ey ez heading houses dl
      hmode hsp

/-- The scan fixture house is exactly 5 units away. -/
theorem dTo_fix : dTo 0 0 0 mHouseFix = 5 := by
  simp only [dTo, mHouseFix, vlen3]
  norm_num
  rw [show (25 : ℝ) = 5 ^ 2 by norm_num]
  exact Real.sqrt_sq (by norm_num)

/-- The scan fixture house is dead ahead of heading 0. -/
theorem coneDot_fix : coneDot 0 0 0 (Real.sin 0) (Real.cos 0) mHouseFix = 1 := by
  simp only [coneDot, mHouseFix, vlen3]
  norm_num [Real.sin_zero, Real.cos_zero]
  rw [show (25 : ℝ) = 5 ^ 2 by norm_num, Real.sqrt_sq (by norm_num : (0:ℝ) ≤ 5)]
  norm_num

/-- The scan over the singleton fixture returns it with its distance. -/
theorem scan_fix :
    scanNearest 0 0 0 (Real.sin 0) (Real.cos 0) [mHouseFix] none
      = some (mHouseFix, dTo 0 0 0 mHouseFix) := by
  rw [scanNearest_cons]
  rw [if_pos ⟨rfl, by rw [coneDot_fix]; norm_num, by simp [accBetter]⟩]
  rfl

/-- Witness for C8: with the concrete stopped state and one burning house
dead ahead, the amended claim theorem dispatches the drone at it. -/
theorem c8_witness :
    ∃ h ∈ [mHouseFix],
      qualifiesFor 0 0 0 (Real.sin 0) (Real.cos 0) h ∧
      (∀ h2 ∈ [mHouseFix], qualifiesFor 0 0 0 (Real.sin 0) (Real.cos 0) h2 →
        dTo 0 0 0 h ≤ dTo 0 0 0 h2) ∧
      (drivingStep gameFix 0 0 0 0 0 [mHouseFix] true).mode = .FlyingToFire ∧
      (drivingStep gameFix 0 0 0 0 0 [mHouseFix] true).activeHouse
        = some h.id ∧
      (drivingStep gameFix 0 0 0 0 0 [mHouseFix] true).hasDispatchedDrone
        = true :=
  (c8_dispatch gameFix 0 0 0 0 0 [mHouseFix] true rfl).1
    ⟨rfl, rfl, rfl, rfl, mHouseFix, List.mem_singleton.mpr rfl,
      rfl, by rw [coneDot_fix]; norm_num⟩

/-- Counterexample to C8 as stated: every condition of the claim holds (the
vehicle is stopped in Driving mode, the gate is unlocked, the flag is clear,
a burning building is dead ahead in the cone) yet no dispatch happens,
because the drone model and its water system have not loaded — a condition
the claim omits. -/
theorem c8_counterexample :
    gameFix.mode = .Driving ∧ gameFix.hasDispatchedDrone = false ∧
    gameFix.hasExceeded10MPH = true ∧
    qualifiesFor 0 0 0 (Real.sin 0) (Real.cos 0) mHouseFix ∧
    (drivingStep gameFix 0 0 0 0 0 [mHouseFix] false).mode = .Driving ∧
    (drivingStep gameFix 0 0 0 0 0 [mHouseFix] false).activeHouse = none := by
  have hstep : drivingStep gameFix 0 0 0 0 0 [mHouseFix] false = gameFix := by
    simp only [drivingStep]
    rw [if_pos (show gameFix.mode = Mode.Driving from rfl)]
    rw [if_neg (show ¬(gameFix.hasExceeded10MPH = false ∧ 10 ≤ (0:ℝ)) by
      simp [gameFix])]
    rw [if_pos (show True ∧ gameFix.hasDispatchedDrone = false ∧
        gameFix.hasExceeded10MPH = true from ⟨trivial, rfl, rfl⟩)]
    rw [scan_fix]
    simp
  refine ⟨rfl, rfl, rfl, ⟨rfl, by rw [coneDot_fix]; norm_num⟩, ?_, ?_⟩
  · rw [hstep]
    rfl
  · rw [hstep]
    rfl

/-- Claim C9 (corrected): in Extinguishing mode with a burning active target
and the drone present (no open-hand cancellation), the hold time accumulates
by dt on every tick REGARDLESS of the aim model — no aim-hit test is
consulted (see the counterexample); and once the accumulated hold time
reaches the 5 s duration, the building is marked extinguished through the
fire scheduler (which also schedules one more random ignition), the score
increases by exactly 100, the water/aim is deactivated, and the mode returns
to Driving. -/
theorem c9_hold_and_complete (g : Game) (fs : FireSys) (dt : ℝ) (h : ℕ)
    (hmode : g.mode = .Extinguishing) (hact : g.activeHouse = some h)
    (hburn : fs.states h = .burning) :
    (g.holdOnTarget + dt < 5 →
      (extinguishingStep g fs dt false true).1.holdOnTarget
        = g.holdOnTarget + dt ∧
      (extinguishingStep g fs dt false true).1.mode = .Extinguishing ∧
      (extinguishingStep g fs dt false true).2 = fs) ∧
    (5 ≤ g.holdOnTarget + dt →
      (extinguishingStep g fs dt false true).1.mode = .Driving ∧
      (extinguishingStep g fs dt false true).1.score = g.score + 100 ∧
      (extinguishingStep g fs dt false true).1.waterActive = false ∧
      (extinguishingStep g fs dt false true).2.states h = .extinguished ∧
      (extinguishingStep g fs dt false true).2.sched = fs.sched + 1) := by
  constructor
  · intro hlt
    have hred : extinguishingStep g fs dt false true
        = ({ g with holdOnTarget := g.holdOnTarget + dt }, fs) := by
      simp [extinguishingStep, hmode, hact, hburn, not_le.mpr hlt]
    rw [hred]
    exact ⟨rfl, hmode, rfl⟩
  · intro hge
    have hred : extinguishingStep g fs dt false true
        = (({ g with
                mode := Mode.Driving,
                score := g.score + 100,
                waterActive := false,
                activeHouse := none,
                holdOnTarget := 0,
                droneTargetPos := none } : Game),
           FireSys.extinguish fs h) := by
      simp [extinguishingStep, hmode, hact, hburn, hge]
    rw [hred]
    refine ⟨rfl, rfl, rfl, ?_, ?_⟩
    · simp [FireSys.extinguish, FireSys.stopFlame, FireSys.setState]
    · simp [FireSys.extinguish, FireSys.stopFlame]

/-- Witness for C9: one accumulation tick (dt = 1: hold time 0 becomes 1 and
the mode stays Extinguishing) and one completing tick (dt = 6: the building
is extinguished, +100 points, water off, back to Driving). -/
theorem c9_witness :
    ((extinguishingStep gameExtFix fsBurn 1 false true).1.holdOnTarget
        = gameExtFix.holdOnTarget + 1 ∧
      (extinguishingStep gameExtFix fsBurn 1 false true).1.mode
        = .Extinguishing ∧
      (extinguishingStep gameExtFix fsBurn 1 false true).2 = fsBurn) ∧
    ((extinguishingStep gameExtFix fsBurn 6 false true).1.mode = .Driving ∧
      (extinguishingStep gameExtFix fsBurn 6 false true).1.score
        = gameExtFix.score + 100 ∧
      (extinguishingStep gameExtFix fsBurn 6 false true).1.waterActive
        = false ∧
      (extinguishingStep gameExtFix fsBurn 6 false true).2.states 0
        = .extinguished ∧
      (extinguishingStep gameExtFix fsBurn 6 false true).2.sched
        = fsBurn.sched + 1) :=
  ⟨(c9_hold_and_complete gameExtFix fsBurn 1 0 rfl rfl rfl).1
      (by norm_num [gameExtFix]),
   (c9_hold_and_complete gameExtFix fsBurn 6 0 rfl rfl rfl).2
      (by norm_num [gameExtFix])⟩

/-- Counterexample to C9 as stated: the aim model reports NO hit (the target
center is 50 units ahead, beyond the 30-unit range limit of
isHittingHouse), yet the extinguishing tick still accumulates hold time —
accumulation does not depend on the aim model at all. -/
theorem c9_counterexample :
    ¬ isHittingHouse 0 0 0 0 0 50 0 0 ∧
    (extinguishingStep gameExtFix fsBurn 1 false true).1.holdOnTarget
      = gameExtFix.holdOnTarget + 1 := by
  constructor
  · intro hhit
    simp only [isHittingHouse, aimVec, vlen3] at hhit
    norm_num [Real.sin_zero, Real.cos_zero] at hhit
  · have hred : extinguishingStep gameExtFix fsBurn 1 false true
        = ({ gameExtFix with
              holdOnTarget := gameExtFix.holdOnTarget + 1 }, fsBurn) := by
      simp [extinguishingStep, gameExtFix, fsBurn, FireSys.setState,
        show ¬(5:ℝ) ≤ gameExtFix.holdOnTarget + 1 by norm_num [gameExtFix]]
    rw [hred]

end FireEngine
